import Mathlib

/-
Shallow embedding of the ignore-resolution and text-classification core of
the `myreporeader` repository (Go).

Source files embedded:
  internal/filters/ignore.go      : DefaultIgnorePatterns, MatchPattern
  internal/filters/textdetect.go  : TextExt, TextFilenames, hasTextyName,
                                    isProbablyTextFile, IsTextFile
  main.go                         : gitignoreRules store, isIgnored,
                                    countLinesInFile, countFilesAndLinesGit,
                                    countFilesAndLines

Modelling conventions:
  - Go strings are modelled as Lean String where only whole-string operations
    occur, with the character-level work done on List Char (a Go string is a
    byte/char sequence; all paths and patterns involved are ASCII).
  - File contents are byte lists (List Nat); a file that cannot be opened is
    None.  The filesystem seen by the walk is an explicit tree (FSNode).
  - Absolute, cleaned paths (the result of filepath.Abs + filepath.Clean on
    Linux) are segment lists (List String): "/a/b" is ["a", "b"].
  - The one stdlib call whose behaviour the source does not determine,
    http.DetectContentType combined with the "text/"-prefix / JSON / JS /
    XML / SVG checks of isProbablyTextFile, is an oracle parameter
    (mimeTexty : List Nat -> Bool); theorems quantify over it.
-/

set_option maxRecDepth 4000

namespace MyRepoReader

/-! ### Character and string primitives (Go strings package, Linux filepath) -/

/-- Go strings.HasPrefix s pre. -/
def goHasPrefixL (s pre : List Char) : Bool := pre.isPrefixOf s

/-- Go strings.HasSuffix s suf. -/
def goHasSuffixL (s suf : List Char) : Bool := suf.isSuffixOf s

/-- Go strings.Contains s sub (substring anywhere, empty sub matches). -/
def goContainsL (sub : List Char) : List Char → Bool
  | [] => sub.isPrefixOf []
  | c :: rest => sub.isPrefixOf (c :: rest) || goContainsL sub rest

def goHasPrefixStr (s pre : String) : Bool := goHasPrefixL s.toList pre.toList

def goHasSuffixStr (s suf : String) : Bool := goHasSuffixL s.toList suf.toList

def goContainsStr (s sub : String) : Bool := goContainsL sub.toList s.toList

/-- ASCII whitespace trimmed by Go strings.TrimSpace (the rule files in play
are ASCII, where Go's Unicode White_Space set coincides with this one). -/
def goIsSpace (c : Char) : Bool :=
  c = ' ' || c = '\t' || c = '\n' || c = '\x0b' || c = '\x0c' || c = '\r'

def goTrimSpaceL (l : List Char) : List Char :=
  ((l.dropWhile goIsSpace).reverse.dropWhile goIsSpace).reverse

/-- Go strings.TrimSpace. -/
def goTrimSpace (s : String) : String := String.mk (goTrimSpaceL s.toList)

/-- Go strings.ToLower (ASCII case mapping; every extension in play is ASCII). -/
def goToLower (s : String) : String := String.mk (s.toList.map Char.toLower)

/-- Go filepath.Base (Linux): "" gives ".", all slashes give "/", otherwise the
last element after stripping trailing slashes. -/
def goBaseL (l : List Char) : List Char :=
  if l = [] then ['.']
  else
    let r := l.reverse.dropWhile (fun c => c = '/')
    if r = [] then ['/']
    else (r.takeWhile (fun c => c ≠ '/')).reverse

/-- Go filepath.Ext: the suffix starting at the final dot of the last path
element, empty when that element has no dot. -/
def goExtL (l : List Char) : List Char :=
  let r := l.reverse
  let pre := r.takeWhile (fun c => c ≠ '.' && c ≠ '/')
  match r.drop pre.length with
  | '.' :: _ => '.' :: pre.reverse
  | _ => []

/-! ### internal/filters/ignore.go -/

/-- Cross-ecosystem default ignore patterns, verbatim from ignore.go
(duplicates "build/" and "target/" kept as declared). -/
def DefaultIgnorePatterns : List String :=
  ["node_modules/", "package-lock.json", "yarn.lock", "pnpm-lock.yaml",
   ".next/", "dist/", "build/", "coverage/",
   "__pycache__/", ".venv/", ".mypy_cache/", ".pytest_cache/",
   "Pipfile.lock", "poetry.lock",
   "target/", "build/", ".gradle/", "*.iml",
   "bin/", "obj/", "packages/",
   "vendor/", "*.exe", "*.out",
   "target/", "Cargo.lock",
   ".DS_Store", "Thumbs.db"]

/-- MatchPattern of ignore.go on character lists.  filepath.ToSlash is the
identity on Linux and is omitted.  strings.TrimSuffix(p, "/") inside the
directory branch removes exactly the one trailing slash, hence dropLast. -/
def matchPatternL (rel pattern : List Char) : Bool :=
  let anchored := goHasPrefixL pattern ['/']
  let p := if anchored then pattern.drop 1 else pattern
  if goHasSuffixL p ['/'] then
    let dir := p.dropLast
    if dir = [] then false
    else if anchored then rel == dir || goHasPrefixL rel (dir ++ ['/'])
    else
      rel == dir || goHasSuffixL rel ('/' :: dir) ||
        goHasPrefixL rel (dir ++ ['/']) || goContainsL ('/' :: dir ++ ['/']) rel
  else if goHasPrefixL p ['*', '.'] then
    goHasSuffixL rel (p.drop 1)
  else if anchored then
    rel == p || goHasPrefixL rel (p ++ ['/'])
  else
    rel == p || goHasSuffixL rel ('/' :: p) || goContainsL ('/' :: p ++ ['/']) rel

/-- filters.MatchPattern (ignore.go lines 41-79). -/
def MatchPattern (rel pattern : String) : Bool :=
  matchPatternL rel.toList pattern.toList

/-! ### internal/filters/textdetect.go -/

/-- The TextExt map's key set, verbatim from textdetect.go (the map carries
unit values, so only the keys matter; lookup is membership). -/
def TextExt : List String :=
  [".txt", ".md", ".mdx", ".rst", ".adoc", ".asciidoc",
   ".tex", ".bib", ".org", ".textile",
   ".csv", ".tsv", ".psv", ".ndjson", ".log", ".properties",
   ".json", ".json5", ".jsonc",
   ".yaml", ".yml", ".toml", ".ini", ".cfg", ".conf", ".env",
   ".html", ".htm", ".xhtml", ".xml", ".xsd", ".xsl", ".xslt", ".dtd", ".svg",
   ".css", ".scss", ".sass", ".less", ".styl",
   ".ejs", ".pug", ".jade", ".hbs", ".mustache", ".njk", ".twig", ".liquid",
   ".js", ".mjs", ".cjs", ".jsx",
   ".ts", ".tsx",
   ".vue", ".svelte", ".astro",
   ".go", ".tmpl", ".mod", ".sum",
   ".py", ".pyi", ".pyw", ".pyx", ".pxd", ".pxi",
   ".rb", ".erb", ".rake", ".gemspec",
   ".php", ".phtml", ".php3", ".php4", ".php5", ".php7", ".php8",
   ".java", ".jsp", ".groovy", ".gradle", ".gvy", ".gy", ".gsh",
   ".kt", ".kts", ".ktm",
   ".scala", ".sc", ".sbt",
   ".c", ".h", ".hpp", ".hh", ".hxx", ".cpp", ".cc", ".cxx", ".ino", ".ipp",
   ".m", ".mm", ".pch",
   ".swift", ".xcconfig", ".pbxproj", ".xcscheme", ".xcworkspacedata",
   ".plist", ".strings",
   ".cs", ".csx", ".fs", ".fsi", ".fsx",
   ".rs", ".ron",
   ".hs", ".lhs", ".cabal",
   ".ml", ".mli", ".re", ".rei",
   ".erl", ".hrl", ".ex", ".exs", ".eex", ".leex", ".heex",
   ".lua", ".rockspec",
   ".sh", ".bash", ".zsh", ".ksh", ".fish", ".command",
   ".ps1", ".psm1", ".psd1", ".bat", ".cmd",
   ".cmake", ".ninja", ".bazel", ".bzl",
   ".tf", ".tfvars", ".hcl", ".cue", ".dhall",
   ".proto", ".thrift", ".avdl",
   ".sql", ".psql", ".mysql", ".cql", ".graphql", ".gql",
   ".plantuml", ".puml", ".dot", ".gv", ".mermaid", ".mmd",
   ".r", ".R", ".Rmd", ".qmd", ".jl"]

/-- The TextFilenames map's key set, verbatim from textdetect.go. -/
def TextFilenames : List String :=
  ["Makefile", "CMakeLists.txt",
   "Dockerfile", ".dockerignore",
   ".gitignore", ".gitattributes", ".gitmodules",
   ".npmrc", ".nvmrc", ".prettierrc", ".eslintignore", ".eslintrc",
   "SConstruct", "SConscript",
   "BUILD", "BUILD.bazel", "WORKSPACE", "WORKSPACE.bazel",
   "Gemfile", "Rakefile", "Vagrantfile", "Procfile", "Jenkinsfile",
   "LICENSE", "LICENSE.md", "COPYING", "README", "README.md",
   "CHANGELOG", "CHANGELOG.md", "NOTICE", "AUTHORS"]

/-- hasTextyName (textdetect.go lines 115-123): base-name lookup in
TextFilenames, then lowercased-extension lookup in TextExt. -/
def hasTextyName (path : String) : Bool :=
  let base := String.mk (goBaseL path.toList)
  if TextFilenames.contains base then true
  else TextExt.contains (goToLower (String.mk (goExtL base.toList)))

/-- Go utf8.Valid over a byte list: the exact acceptance table of RFC 3629
UTF-8 that Go implements (C0/C1 and F5..FF rejected; E0 requires A0..BF, ED
requires 80..9F excluding surrogates; F0 requires 90..BF, F4 requires
80..8F). -/
def utf8Valid : List Nat → Bool
  | [] => true
  | b :: rest =>
    if b ≤ 0x7F then utf8Valid rest
    else if b < 0xC2 then false
    else if b ≤ 0xDF then
      match rest with
      | c1 :: r => (0x80 ≤ c1 && c1 ≤ 0xBF) && utf8Valid r
      | [] => false
    else if b ≤ 0xEF then
      match rest with
      | c1 :: c2 :: r =>
        (if b = 0xE0 then 0xA0 ≤ c1 && c1 ≤ 0xBF
         else if b = 0xED then 0x80 ≤ c1 && c1 ≤ 0x9F
         else 0x80 ≤ c1 && c1 ≤ 0xBF) &&
          (0x80 ≤ c2 && c2 ≤ 0xBF) && utf8Valid r
      | _ => false
    else if b ≤ 0xF4 then
      match rest with
      | c1 :: c2 :: c3 :: r =>
        (if b = 0xF0 then 0x90 ≤ c1 && c1 ≤ 0xBF
         else if b = 0xF4 then 0x80 ≤ c1 && c1 ≤ 0x8F
         else 0x80 ≤ c1 && c1 ≤ 0xBF) &&
          (0x80 ≤ c2 && c2 ≤ 0xBF) && (0x80 ≤ c3 && c3 ≤ 0xBF) && utf8Valid r
      | _ => false
    else false

/-- The printable-byte counter of isProbablyTextFile's final loop
(tab, LF, CR, or 0x20..0x7E). -/
def printableCount (s : List Nat) : Nat :=
  (s.filter (fun b => b = 9 || b = 10 || b = 13 || (32 ≤ b && b ≤ 126))).length

/-- isProbablyTextFile (textdetect.go lines 126-169).  `content` is None when
os.Open fails; otherwise the first Read's sample is the first 8192 bytes.
`mimeTexty` is the oracle for http.DetectContentType combined with the
"text/"-prefix and JSON/JavaScript/XML/SVG checks.  The final float test
printable/len >= 0.95 is the exact rational comparison 20*printable >=
19*len: with len <= 8192 the two float64 operands are more than 1e-4 apart
whenever the rational comparison is strict, far above rounding error. -/
def isProbablyTextFile (mimeTexty : List Nat → Bool)
    (content : Option (List Nat)) : Bool :=
  match content with
  | none => false
  | some data =>
    let s := data.take 8192
    if s.length = 0 then true
    else if s.contains 0 then false
    else if mimeTexty s then true
    else if utf8Valid s then true
    else 20 * printableCount s ≥ 19 * s.length

/-- filters.IsTextFile (textdetect.go lines 172-174): the name signal, or the
content sniff of the file at that path (whose readable content is passed
alongside, None when the open fails). -/
def IsTextFile (mimeTexty : List Nat → Bool) (path : String)
    (content : Option (List Nat)) : Bool :=
  hasTextyName path || isProbablyTextFile mimeTexty content

/-! ### main.go: rule store and isIgnored

Absolute cleaned paths are segment lists: "/a/b" is ["a", "b"], the
filesystem root "/" is [].  filepath.Dir is List.dropLast (with [] its own
parent, the fixed point the ascent loop detects via parent == dir). -/

/-- The gitignoreRules map of main.go: directory -> rules declared there, in
declaration order.  loadGitignores populates at most one entry per directory;
lookup of an absent directory yields the empty list, as a Go map read does. -/
abbrev RuleStore := List (List String × List String)

/-- Go map read gitignoreRules[dir] (nil, i.e. [], when absent). -/
def rulesFor : RuleStore → List String → List String
  | [], _ => []
  | (d, rs) :: rest, dir => if d = dir then rs else rulesFor rest dir

/-- filepath.Rel base target for clean absolute segment paths: strip the
common prefix, one ".." per remaining base segment, then the remaining target
segments. -/
def relSegs : List String → List String → List String
  | b :: bs, t :: ts =>
    if b = t then relSegs bs ts
    else (b :: bs).map (fun _ => "..") ++ (t :: ts)
  | [], ts => ts
  | bs, [] => bs.map (fun _ => "..")

/-- filepath.ToSlash(filepath.Rel(base, target)) as a string; Rel of a path
against itself is ".". -/
def relJoin (base target : List String) : String :=
  match relSegs base target with
  | [] => "."
  | segs => String.intercalate "/" segs

/-- The inner pattern loop of isIgnored over one directory's rules: trim each
pattern, skip blanks and "#" comments, first MatchPattern hit wins. -/
def dirRulesMatch (store : RuleStore) (abs dir : List String) : Bool :=
  let relFromDir := relJoin dir abs
  (rulesFor store dir).any fun pat =>
    let pat := goTrimSpace pat
    if pat = "" || goHasPrefixStr pat "#" then false
    else MatchPattern relFromDir pat

/-- The ascent loop of isIgnored (main.go lines 64-88), recursing on the
reversed directory: rdir is dir.reverse, so the parent step filepath.Dir is
the structural tail.  At [] the directory is the filesystem root "/", its own
parent: its rules are still tested (the loop body runs before the breaks) and
the ascent then stops, exactly as parent == dir breaks the Go loop.  The
dir == root break likewise happens after the pattern test of root itself. -/
def ascendRev (store : RuleStore) (root abs : List String) :
    List String → Bool
  | [] => dirRulesMatch store abs []
  | s :: rest =>
    if dirRulesMatch store abs ((s :: rest).reverse) then true
    else if (s :: rest).reverse = root then false
    else ascendRev store root abs rest

/-- The default-pattern pass of isIgnored (main.go lines 91-97). -/
def defaultIgnored (abs root : List String) : Bool :=
  DefaultIgnorePatterns.any fun pat => MatchPattern (relJoin root abs) pat

/-- isIgnored (main.go lines 59-100) on the already absolute, cleaned path:
the .gitignore ascent from the path's directory up to root (or the
filesystem-root fixed point), then the cross-ecosystem defaults against the
path relative to root. -/
def isIgnored (store : RuleStore) (abs root : List String) : Bool :=
  ascendRev store root abs abs.dropLast.reverse || defaultIgnored abs root

/-! ### main.go: line counting and the two enumeration strategies -/

/-- countLinesInFile's loop (main.go lines 183-194): bufio ReadString('\n')
counts one line per delimiter found; the final chunk without a newline hits
io.EOF before count++ and is not counted.  So the count is the number of
newline bytes. -/
def countLinesLoop : List Nat → Nat
  | [] => 0
  | b :: rest => (if b = 10 then 1 else 0) + countLinesLoop rest

/-- countLinesInFile (main.go lines 176-196); None when os.Open fails. -/
def countLinesInFile (content : Option (List Nat)) : Option Nat :=
  content.map countLinesLoop

/-- A filesystem subtree: regular files with byte contents, directories with
named entries listed in name order (os.ReadDir sorts by filename). -/
inductive FSNode where
  | file (content : List Nat)
  | dir (entries : List (String × FSNode))
deriving Repr

/-- Directory-entry lookup by name. -/
def lookupEntries : List (String × FSNode) → String → Option FSNode
  | [], _ => none
  | (n, node) :: rest, name =>
    if n = name then some node else lookupEntries rest name

/-- Resolve a path (segments below the node) in the tree. -/
def lookupNode : FSNode → List String → Option FSNode
  | node, [] => some node
  | .file _, _ :: _ => none
  | .dir es, n :: rest =>
    match lookupEntries es n with
    | some child => lookupNode child rest
    | none => none

/-- os.Open + Read of a whole file rooted at `fs`, where `path` is the
segment list below `fs`; None for a missing path or a directory. -/
def readFile (fs : FSNode) (path : List String) : Option (List Nat) :=
  match lookupNode fs path with
  | some (.file c) => some c
  | _ => none

/-- Absolute segment path rendered as the slash-joined string handed to
filters.IsTextFile (only its base name is ever inspected). -/
def pathStr (segs : List String) : String := String.intercalate "/" segs

/-- countFilesAndLinesGit's per-file loop (main.go lines 135-148) over the
git-tracked absolute paths `files`, with `fsAt root = fs`: skip ignored, skip
non-text, skip files whose open for line counting fails, else count the file
and its lines.  The Go loop accumulates in order; the fold sums the same
contributions. -/
def countFilesAndLinesGit (mimeTexty : List Nat → Bool) (store : RuleStore)
    (fs : FSNode) (root : List String) : List (List String) → Nat × Nat
  | [] => (0, 0)
  | f :: rest =>
    let acc := countFilesAndLinesGit mimeTexty store fs root rest
    if isIgnored store f root then acc
    else if !(IsTextFile mimeTexty (pathStr f)
        (readFile fs (f.drop root.length))) then acc
    else
      match countLinesInFile (readFile fs (f.drop root.length)) with
      | none => acc
      | some l => (acc.1 + 1, acc.2 + l)

mutual

/-- One iteration of countFilesAndLines' loop (main.go lines 202-239) for the
path `path` whose filesystem object is `node`: the top-of-loop isIgnored
check, then the isDir split.  Directories contribute their entries
(dotfiles other than .gitignore skipped, ignored children skipped, each
surviving child re-entering countFilesAndLines as a singleton); files
contribute (1, lines) when text and readable. -/
def countNode (mimeTexty : List Nat → Bool) (store : RuleStore)
    (root path : List String) : FSNode → Nat × Nat
  | .dir es =>
    if isIgnored store path root then (0, 0)
    else countEntries mimeTexty store root path es
  | .file c =>
    if isIgnored store path root then (0, 0)
    else if !(IsTextFile mimeTexty (pathStr path) (some c)) then (0, 0)
    else
      match countLinesInFile (some c) with
      | none => (0, 0)
      | some l => (1, l)
termination_by node => sizeOf node

/-- The inner entry loop of countFilesAndLines' directory branch. -/
def countEntries (mimeTexty : List Nat → Bool) (store : RuleStore)
    (root path : List String) : List (String × FSNode) → Nat × Nat
  | [] => (0, 0)
  | (name, child) :: rest =>
    let tail := countEntries mimeTexty store root path rest
    if goHasPrefixStr name "." && name ≠ ".gitignore" then tail
    else if isIgnored store (path ++ [name]) root then tail
    else
      let c := countNode mimeTexty store root (path ++ [name]) child
      (c.1 + tail.1, c.2 + tail.2)
termination_by es => sizeOf es

end

/-- countFilesAndLines (main.go lines 198-242) over a list of paths paired
with the filesystem objects they denote. -/
def countFilesAndLines (mimeTexty : List Nat → Bool) (store : RuleStore)
    (root : List String) : List (List String × FSNode) → Nat × Nat
  | [] => (0, 0)
  | (path, node) :: rest =>
    let tail := countFilesAndLines mimeTexty store root rest
    let c := countNode mimeTexty store root path node
    (c.1 + tail.1, c.2 + tail.2)

/-! ### Concrete scenario of the end-to-end claim (spec section 8)

A scan root "/repo" holding src/app.js (tracked, two lines),
node_modules/lib/index.js (untracked), and dist/bundle.js (tracked); no
.gitignore anywhere, so the rule store is empty and only the default
patterns act. -/

/-- Bytes of src/app.js: "a();\nb();\n", two newline-terminated lines. -/
def appJsBytes : List Nat := [97, 40, 41, 59, 10, 98, 40, 41, 59, 10]

def bundleJsBytes : List Nat := [120, 10]

def indexJsBytes : List Nat := [121, 10]

def demoRoot : List String := ["repo"]

/-- The tree below the scan root, entries in os.ReadDir name order. -/
def demoFS : FSNode :=
  .dir [("dist", .dir [("bundle.js", .file bundleJsBytes)]),
        ("node_modules", .dir [("lib", .dir [("index.js", .file indexJsBytes)])]),
        ("src", .dir [("app.js", .file appJsBytes)])]

/-- git ls-files output joined onto the root: node_modules is untracked. -/
def demoTracked : List (List String) :=
  [["repo", "dist", "bundle.js"], ["repo", "src", "app.js"]]

/-- The non-hidden root children handed to countFilesAndLines by output(),
each paired with the filesystem object at that path. -/
def demoChildren : List (List String × FSNode) :=
  [(["repo", "dist"], .dir [("bundle.js", .file bundleJsBytes)]),
   (["repo", "node_modules"], .dir [("lib", .dir [("index.js", .file indexJsBytes)])]),
   (["repo", "src"], .dir [("app.js", .file appJsBytes)])]

/-- Bytes "hello\nworld\n" of the spec's extensionless-text example. -/
def helloWorldBytes : List Nat :=
  [104, 101, 108, 108, 111, 10, 119, 111, 114, 108, 100, 10]

/-- Go p[1:] on a string, as MatchPattern's extension branch uses it. -/
def goDropStr (s : String) (n : Nat) : String := String.mk (s.toList.drop n)

/-! ### Helper lemmas -/

theorem append_ne_self_of_ne_nil (R xs : List String) (h : xs ≠ []) :
    R ++ xs ≠ R := by
  intro he
  have hl := congrArg List.length he
  simp [List.length_append] at hl
  exact h hl

theorem rulesFor_single_miss (d dir : List String) (rs : List String)
    (h : d ≠ dir) : rulesFor [(d, rs)] dir = [] := by
  simp [rulesFor, h]

theorem relSegs_append (R xs : List String) : relSegs R (R ++ xs) = xs := by
  induction R with
  | nil => cases xs <;> simp [relSegs]
  | cons a R ih => simpa [relSegs] using ih

theorem relJoin_append (R : List String) (x : String) (xs : List String) :
    relJoin R (R ++ (x :: xs)) = String.intercalate "/" (x :: xs) := by
  rw [relJoin, relSegs_append]

theorem dirRulesMatch_miss (root : List String) (pats : List String)
    (abs dir : List String) (h : root ≠ dir) :
    dirRulesMatch [(root, pats)] abs dir = false := by
  simp [dirRulesMatch, rulesFor_single_miss _ _ _ h]

/-- The ascent through a store holding rules only at `root` skips every
strictly deeper directory and returns root's own verdict. -/
theorem ascend_single (pats : List String) (root abs : List String) :
    ∀ extraRev : List String,
      ascendRev [(root, pats)] root abs (extraRev ++ root.reverse) =
        dirRulesMatch [(root, pats)] abs root := by
  intro extraRev
  induction extraRev with
  | nil =>
    simp only [List.nil_append]
    match hr : root.reverse with
    | [] =>
      have : root = [] := by simpa using congrArg List.reverse hr
      rw [ascendRev, this]
    | s :: rest =>
      have hrev : (s :: rest).reverse = root := by
        rw [← hr, List.reverse_reverse]
      rw [ascendRev, hrev]
      cases h : dirRulesMatch [(root, pats)] abs root <;> simp
  | cons e er ih =>
    have hd : root ≠ (e :: (er ++ root.reverse)).reverse := by
      rw [List.reverse_cons, List.reverse_append, List.reverse_reverse,
        List.append_assoc]
      exact fun he =>
        append_ne_self_of_ne_nil root (er.reverse ++ [e]) (by simp) he.symm
    simp only [ascendRev, List.append_eq, dirRulesMatch_miss root pats abs _ hd,
      Bool.false_eq_true, if_false]
    rw [if_neg fun hh => hd hh.symm, ih]

theorem dirRulesMatch_at_root (R pats : List String) (x : String)
    (xs : List String) :
    dirRulesMatch [(R, pats)] (R ++ (x :: xs)) R =
      pats.any (fun pat =>
        let pat := goTrimSpace pat
        if pat = "" || goHasPrefixStr pat "#" then false
        else MatchPattern (String.intercalate "/" (x :: xs)) pat) := by
  rw [dirRulesMatch, relJoin_append]
  simp [rulesFor]

theorem defaultIgnored_append (R : List String) (x : String)
    (xs : List String) :
    defaultIgnored (R ++ (x :: xs)) R =
      DefaultIgnorePatterns.any
        (fun pat => MatchPattern (String.intercalate "/" (x :: xs)) pat) := by
  rw [defaultIgnored, relJoin_append]

/-- isIgnored over a store holding rules only at the scan root, for a path
strictly below it: root's own rules, then the defaults. -/
theorem isIgnored_single (R pats : List String) (x : String)
    (xs : List String) :
    isIgnored [(R, pats)] (R ++ (x :: xs)) R =
      (dirRulesMatch [(R, pats)] (R ++ (x :: xs)) R ||
        defaultIgnored (R ++ (x :: xs)) R) := by
  rw [isIgnored, List.dropLast_append_of_ne_nil R (List.cons_ne_nil x xs),
    List.reverse_append, ascend_single]

/-- The ascent's first tested directory is the path's own parent: a hit there
settles the whole ascent. -/
theorem ascend_first (store : RuleStore) (root abs : List String)
    (rdir : List String) (h : dirRulesMatch store abs rdir.reverse = true) :
    ascendRev store root abs rdir = true := by
  match rdir with
  | [] => rw [ascendRev]; simpa using h
  | s :: rest => rw [ascendRev, if_pos h]

theorem dirRulesMatch_ext (s1 s2 : RuleStore)
    (he : ∀ d, rulesFor s1 d = rulesFor s2 d) (abs dir : List String) :
    dirRulesMatch s1 abs dir = dirRulesMatch s2 abs dir := by
  simp only [dirRulesMatch, he dir]

theorem ascendRev_ext (s1 s2 : RuleStore)
    (he : ∀ d, rulesFor s1 d = rulesFor s2 d) (root abs : List String) :
    ∀ rdir, ascendRev s1 root abs rdir = ascendRev s2 root abs rdir := by
  intro rdir
  induction rdir with
  | nil => simp only [ascendRev]; exact dirRulesMatch_ext s1 s2 he abs []
  | cons s rest ih =>
    simp only [ascendRev]
    rw [dirRulesMatch_ext s1 s2 he abs _, ih]

/-- A positive name signal alone makes IsTextFile true, whatever the content
and the content-type oracle. -/
theorem isTextFile_of_name (m : List Nat → Bool) (p : String)
    (c : Option (List Nat)) (h : hasTextyName p = true) :
    IsTextFile m p c = true := by
  simp [IsTextFile, h]

theorem two_prefixOf {a b : Char} {l : List Char}
    (h : [a, b].isPrefixOf l = true) : ∃ t, l = a :: b :: t := by
  match l with
  | [] => simp [List.isPrefixOf] at h
  | [c] => simp [List.isPrefixOf] at h
  | c :: d :: t =>
    simp [List.isPrefixOf] at h
    exact ⟨t, by rw [h.1, h.2]⟩

/-! ### Claims -/

/-- C1 (counterexample to the claim as stated): the file notes.md has a NUL
among its first bytes, yet IsTextFile returns true, because the recognized
.md extension alone settles the verdict before any content is looked at. -/
theorem claim_C1_counterexample :
    (([0, 1] : List Nat).take 8192).contains 0 = true ∧
      IsTextFile (fun _ => false) "notes.md" (some [0, 1]) = true := by
  constructor
  · decide
  · decide

/-- C1 (amended): for every file whose name signal is negative, a NUL byte in
the first 8 KiB makes IsTextFile false; every empty file is text; and a file
containing exactly the bytes "hello\nworld\n" is text whatever its name (in
particular with no recognized extension), for every content-type oracle. -/
theorem claim_C1 : ∀ (m : List Nat → Bool) (path : String)
    (content : List Nat),
    (hasTextyName path = false → (content.take 8192).contains 0 = true →
      IsTextFile m path (some content) = false)
    ∧ IsTextFile m path (some []) = true
    ∧ IsTextFile m path (some helloWorldBytes) = true := by
  intro m path content
  refine ⟨fun hname h0 => ?_, ?_, ?_⟩
  · by_cases hl : (content.take 8192).length = 0
    · rw [List.length_eq_zero] at hl
      rw [hl] at h0
      simp at h0
    · have h0x : (0 : Nat) ∈ content.take 8192 := by simpa using h0
      have hcne : content ≠ [] := by
        intro hc; rw [hc] at hl; simp at hl
      simp [IsTextFile, isProbablyTextFile, hname, hcne, h0x]
  · simp [IsTextFile, isProbablyTextFile]
  · simp [IsTextFile, isProbablyTextFile, helloWorldBytes]
    exact Or.inr (Or.inr (Or.inl (by decide)))

/-- C1 witness: a NUL file without a recognized name is classified binary. -/
theorem claim_C1_witness :
    IsTextFile (fun _ => false) "blob" (some [0, 1]) = false :=
  (claim_C1 (fun _ => false) "blob" [0, 1]).1 (by decide) (by decide)

/-- C2 (counterexample to the claim as stated): README.md cannot be opened,
yet IsTextFile returns true from the name signal alone. -/
theorem claim_C2_counterexample :
    IsTextFile (fun _ => false) "README.md" none = true := by
  decide

/-- C2 (amended): the content sniff fails closed (an unopenable file is never
probably-text), so IsTextFile is false for every unopenable file whose name
signal is negative; and an unopenable file is excluded from the Git-strategy
summary count in every case, because countLinesInFile's failed open skips the
file even when its name made IsTextFile true. -/
theorem claim_C2 : ∀ (m : List Nat → Bool) (path : String)
    (store : RuleStore) (fs : FSNode) (root f : List String),
    isProbablyTextFile m none = false
    ∧ (hasTextyName path = false → IsTextFile m path none = false)
    ∧ (readFile fs (f.drop root.length) = none →
        countFilesAndLinesGit m store fs root [f] = (0, 0)) := by
  intro m path store fs root f
  refine ⟨rfl, fun h => ?_, fun h => ?_⟩
  · simp [IsTextFile, isProbablyTextFile, h]
  · simp only [countFilesAndLinesGit, h, countLinesInFile, Option.map_none']
    split
    · rfl
    · split
      · rfl
      · rfl

/-- C2 witness: an unopenable file with an unrecognized name is not text. -/
theorem claim_C2_witness :
    IsTextFile (fun _ => false) "blob" none = false :=
  (claim_C2 (fun _ => false) "blob" [] (FSNode.dir []) [] []).2.1 (by decide)

/-- C3: the ascent tests the path's own directory first (a hit there decides
the verdict by itself), the defaults are consulted exactly when the whole
ascent found no match, and the concrete scenario — *.log declared only at
the root, sub declaring nothing — ignores sub/debug.log via the ascent (its
own directory does not match, the ascent does, the defaults would not). -/
theorem claim_C3 :
    (∀ (store : RuleStore) (root abs : List String),
        dirRulesMatch store abs abs.dropLast = true →
        isIgnored store abs root = true)
    ∧ (∀ (store : RuleStore) (root abs : List String),
        ascendRev store root abs abs.dropLast.reverse = false →
        isIgnored store abs root = defaultIgnored abs root)
    ∧ dirRulesMatch [(["r"], ["*.log"]), (["r", "sub"], [])]
        ["r", "sub", "debug.log"] ["r", "sub"] = false
    ∧ ascendRev [(["r"], ["*.log"]), (["r", "sub"], [])] ["r"]
        ["r", "sub", "debug.log"] (["r", "sub"].reverse) = true
    ∧ defaultIgnored ["r", "sub", "debug.log"] ["r"] = false
    ∧ isIgnored [(["r"], ["*.log"]), (["r", "sub"], [])]
        ["r", "sub", "debug.log"] ["r"] = true := by
  refine ⟨fun store root abs h => ?_, fun store root abs h => ?_,
    by decide, by decide, by decide, by decide⟩
  · have hrr : dirRulesMatch store abs abs.dropLast.reverse.reverse = true := by
      rwa [List.reverse_reverse]
    rw [isIgnored, ascend_first store root abs _ hrr, Bool.true_or]
  · rw [isIgnored, h, Bool.false_or]

/-- C3 witness: a rule of the file's own directory is applied first. -/
theorem claim_C3_witness :
    isIgnored [(["r"], ["*.txt"])] ["r", "a.txt"] ["r"] = true :=
  claim_C3.1 [(["r"], ["*.txt"])] ["r"] ["r", "a.txt"] (by decide)

/-- C4: on the scenario root (src/app.js tracked, node_modules/lib/index.js
untracked and matching the default node_modules/, dist/bundle.js tracked and
matching the default dist/) both enumeration strategies — the Git-tracked
list and the filesystem walk — produce the same summary, exactly 1 file
(and its 2 lines), for every content-type oracle: they run the identical
isIgnored and IsTextFile per-file filters. -/
theorem claim_C4 : ∀ m : List Nat → Bool,
    countFilesAndLinesGit m [] demoFS demoRoot demoTracked = (1, 2)
    ∧ countFilesAndLines m [] demoRoot demoChildren = (1, 2) := by
  intro m
  have htext : ∀ c, IsTextFile m (pathStr ["repo", "src", "app.js"]) c = true :=
    fun c => isTextFile_of_name m _ c (by decide)
  constructor
  · simp +decide [countFilesAndLinesGit, demoTracked, demoFS, demoRoot,
      readFile, lookupNode, lookupEntries, appJsBytes, bundleJsBytes,
      countLinesInFile, countLinesLoop, htext]
  · simp +decide [countFilesAndLines, countNode, countEntries, demoChildren,
      demoRoot, readFile, lookupNode, lookupEntries, appJsBytes,
      bundleJsBytes, indexJsBytes, countLinesInFile, countLinesLoop, htext]

/-- C4 witness: the scenario evaluated at a concrete content-type oracle. -/
theorem claim_C4_witness :
    countFilesAndLinesGit (fun _ => false) [] demoFS demoRoot demoTracked
        = (1, 2)
    ∧ countFilesAndLines (fun _ => false) [] demoRoot demoChildren = (1, 2) :=
  claim_C4 (fun _ => false)

/-- C5 (counterexample to the claim as stated): with the anchored rule
"/build/" declared at the root, isIgnored on R/sub/build is true, not false:
the default cross-ecosystem pattern "build/" matches sub/build. -/
theorem claim_C5_counterexample :
    isIgnored [(["r"], ["/build/"])] ["r", "sub", "build"] ["r"] = true := by
  decide

/-- C5 (amended): for every scan root R, the unanchored rule "build/" at R
ignores R/build, R/build/x.txt and R/sub/build/x.txt; the anchored rule
"/build/" ignores R/build and its descendants, and as a rule it does not
match sub/build — but isIgnored on R/sub/build is still true, through the
default pattern "build/". -/
theorem claim_C5 : ∀ R : List String,
    isIgnored [(R, ["build/"])] (R ++ ["build"]) R = true
    ∧ isIgnored [(R, ["build/"])] (R ++ ["build", "x.txt"]) R = true
    ∧ isIgnored [(R, ["build/"])] (R ++ ["sub", "build", "x.txt"]) R = true
    ∧ isIgnored [(R, ["/build/"])] (R ++ ["build"]) R = true
    ∧ isIgnored [(R, ["/build/"])] (R ++ ["build", "x.txt"]) R = true
    ∧ dirRulesMatch [(R, ["/build/"])] (R ++ ["sub", "build"]) R = false
    ∧ MatchPattern "sub/build" "/build/" = false
    ∧ isIgnored [(R, ["/build/"])] (R ++ ["sub", "build"]) R = true := by
  intro R
  refine ⟨?_, ?_, ?_, ?_, ?_, ?_, by decide, ?_⟩ <;>
    first
      | (rw [isIgnored_single, dirRulesMatch_at_root, defaultIgnored_append]
         decide)
      | (rw [dirRulesMatch_at_root]; decide)

/-- C5 witness: the unanchored directory rule at a concrete root. -/
theorem claim_C5_witness :
    isIgnored [(["r0"], ["build/"])] (["r0"] ++ ["build"]) ["r0"] = true :=
  (claim_C5 ["r0"]).1

/-- C6: the extension rule *.log matches anything.log and
nested/dir/anything.log but not anything.log.txt; and every pattern that
starts with "*." and is not a directory rule (no trailing slash — directory
shape takes priority in MatchPattern, as in the spec's shape order) matches
exactly the relative paths ending with the pattern's suffix from the dot
onward. -/
theorem claim_C6 :
    (MatchPattern "anything.log" "*.log" = true
     ∧ MatchPattern "nested/dir/anything.log" "*.log" = true
     ∧ MatchPattern "anything.log.txt" "*.log" = false)
    ∧ ∀ (rel pat : String), goHasPrefixStr pat "*." = true →
        goHasSuffixStr pat "/" = false →
        MatchPattern rel pat = goHasSuffixStr rel (goDropStr pat 1) := by
  refine ⟨⟨by decide, by decide, by decide⟩, fun rel pat h1 h2 => ?_⟩
  have h1' : ['*', '.'].isPrefixOf pat.toList = true := h1
  obtain ⟨t, hp⟩ := two_prefixOf h1'
  have h2' : ['/'].isSuffixOf pat.toList = false := h2
  rw [MatchPattern, matchPatternL]
  simp only [goHasPrefixL, goHasSuffixL, goDropStr, goHasSuffixStr, hp]
  simp only [hp] at h2'
  simp [List.isPrefixOf, h2']

/-- C6 witness: the general extension clause at rel x/a.log, pattern
*.log. -/
theorem claim_C6_witness :
    MatchPattern "x/a.log" "*.log" =
      goHasSuffixStr "x/a.log" (goDropStr "*.log" 1) :=
  claim_C6.2 "x/a.log" "*.log" (by decide) (by decide)

/-- C7: countLinesInFile counts newline-terminated lines: "a\nb\nc" (bytes
97 10 98 10 99, no trailing newline) counts 2, "a\nb\nc\n" counts 3. -/
theorem claim_C7 :
    countLinesInFile (some [97, 10, 98, 10, 99]) = some 2
    ∧ countLinesInFile (some [97, 10, 98, 10, 99, 10]) = some 3 := by
  constructor
  · decide
  · decide

/-- C8: a pattern that is only slashes never matches a relative path (one
that is nonempty and does not start with a slash, as every output of
filepath.Rel is): "//" dies on the empty directory name after stripping
slashes, and "/" reduces to the anchored empty plain rule, which such paths
cannot satisfy. -/
theorem claim_C8 : ∀ rel : String, rel ≠ "" →
    goHasPrefixStr rel "/" = false →
    MatchPattern rel "/" = false ∧ MatchPattern rel "//" = false := by
  intro rel hne hrel
  have hl : rel.toList ≠ [] := by
    intro h
    exact hne (by
      cases rel with
      | mk data => simpa [String.toList] using congrArg String.mk h)
  constructor
  · rw [MatchPattern, matchPatternL]
    have h1 : goHasPrefixL rel.toList ['/'] = false := hrel
    simp [goHasPrefixL, goHasSuffixL, List.isPrefixOf, h1, hl]
    exact ⟨hl, h1⟩
  · rw [MatchPattern, matchPatternL]
    simp [goHasPrefixL, goHasSuffixL, List.isPrefixOf]

/-- C8 witness: the slash-only patterns on the relative path a/b. -/
theorem claim_C8_witness :
    MatchPattern "a/b" "/" = false ∧ MatchPattern "a/b" "//" = false :=
  claim_C8 "a/b" (by decide) (by decide)

/-- C9: isIgnored is a pure function of the rule store (the Go code only
reads the gitignoreRules map), so repeated calls agree trivially; the
substantial half proved here is that the verdict depends on the store only
through its observable rule mapping, so any two calls against stores in the
same state return the same verdict. -/
theorem claim_C9 : ∀ (s1 s2 : RuleStore) (p r : List String),
    (∀ d, rulesFor s1 d = rulesFor s2 d) →
    isIgnored s1 p r = isIgnored s2 p r
    ∧ isIgnored s1 p r = isIgnored s1 p r := by
  intro s1 s2 p r he
  exact ⟨by rw [isIgnored, isIgnored, ascendRev_ext s1 s2 he r p], rfl⟩

/-- C9 witness: two observably equal stores at a concrete path. -/
theorem claim_C9_witness :
    isIgnored [(["x"], [])] ["r", "a"] ["r"] = isIgnored [] ["r", "a"] ["r"]
    ∧ isIgnored [(["x"], [])] ["r", "a"] ["r"]
        = isIgnored [(["x"], [])] ["r", "a"] ["r"] :=
  claim_C9 [(["x"], [])] [] ["r", "a"] ["r"] (fun d => by simp [rulesFor])

/-- C10: a positive name signal — base name among the well-known text
filenames, or lowercased extension in the allow-list, which is precisely
hasTextyName — makes IsTextFile true with the same verdict across any two
filesystem states (any contents, including a file that does not exist or
cannot be read) and any two content-type oracles. -/
theorem claim_C10 : ∀ path : String, hasTextyName path = true →
    ∀ (m1 m2 : List Nat → Bool) (c1 c2 : Option (List Nat)),
      IsTextFile m1 path c1 = true
      ∧ IsTextFile m1 path c1 = IsTextFile m2 path c2 := by
  intro path h m1 m2 c1 c2
  constructor
  · simp [IsTextFile, h]
  · simp [IsTextFile, h]

/-- C10 witness: Makefile is text whether or not it exists, under different
oracles. -/
theorem claim_C10_witness :
    IsTextFile (fun _ => false) "Makefile" none = true
    ∧ IsTextFile (fun _ => false) "Makefile" none
        = IsTextFile (fun _ => true) "Makefile" (some [0]) :=
  claim_C10 "Makefile" (by decide) (fun _ => false) (fun _ => true) none
    (some [0])

end MyRepoReader
